import Mathlib

/-!
Shallow embedding of `dltpy/dltfile.py` (DLT log decoder): payload decoding
(`get_value`, `parse_payload`), the lazily cached `DltMessage.payload`
property, `DltMessage.loadn`, `DltMessage.match`, the stream-mode iterator
`DltReader.__iter__`, and the file-mode reader `DltFile.get_next_message` /
`DltFile.__iter__` with its signature-based resynchronization.

Bytes are modelled as `List Nat` (each entry a byte value), Python `float`
arithmetic as exact rationals, Python exceptions as an explicit error type,
and the two generated/native collaborators that are not part of the
repository source (`dltpy.gen.payload_item.PayloadItem.from_io` and
`dltpy.gen.stored_message.StoredMessage.from_io`) are respectively modelled
from the spec and abstracted as a parse parameter.
-/

/-- Python exceptions that the decode pipeline can raise, plus an
`outOfFuel` marker used only to make the payload loop structurally
recursive (it is unreachable for the fuel `parse_payload` supplies). -/
inductive PyExn where
  | eofError
  | parseError
  | indexError
  | assertionError
  | typeError
  | outOfFuel
  deriving DecidableEq

/-- Modelled from the spec: the per-item type-info tag of
`dltpy.gen.payload_item` (not under `src/`): a 32-bit little-endian word
whose low bits declare the width (`tyle`) and whose flag bits declare the
kind — BOOL (bit 4), SINT (bit 5), UINT (bit 6), FLOA (bit 7), STRG
(bit 9), matching the published DLT type-info layout the spec defers to. -/
structure TypeInfo where
  tyle : Nat
  boolFlag : Bool
  sintFlag : Bool
  uintFlag : Bool
  flotFlag : Bool
  strg : Bool
  deriving DecidableEq

/-- Modelled from the spec: a length-prefixed string value
(`PayloadItem.SizedString` in the generated code): explicit length, then
that many data bytes (wire strings are NUL-terminated; the terminator is
part of `data` here and stripped later by `parse_payload`). -/
structure SizedString where
  len : Nat
  data : List Nat
  deriving DecidableEq

/-- Modelled from the spec: one decoded payload item of
`dltpy.gen.payload_item`. Each optional field is present exactly when the
corresponding type-info flag is set, mirroring the generated parser's
conditional attributes that `get_value` probes with `hasattr`. -/
structure PayloadItem where
  plt : TypeInfo
  str : Option SizedString
  uint : Option Nat
  sint : Option Int
  float : Option Nat
  bool : Option Nat
  deriving DecidableEq

/-- A raw value as `get_value` returns it: the `str` case still carries the
`SizedString` wrapper, exactly as the Python attribute does. -/
inductive PyValue where
  | str (s : SizedString)
  | uint (n : Nat)
  | sint (i : Int)
  | float (bits : Nat)
  | bool (b : Nat)
  deriving DecidableEq

/-- A payload value as `parse_payload` exposes it to callers (strings
unwrapped to their bytes). Float values are carried as their raw bit
pattern; no claim depends on floating-point semantics. -/
inductive PayloadValue where
  | str (d : List Nat)
  | uint (n : Nat)
  | sint (i : Int)
  | float (bits : Nat)
  | bool (b : Nat)
  deriving DecidableEq

/-- Embeds `get_value` (dltfile.py lines 33–37): probe the item's
attributes in the order str, uint, sint, float, bool and return the first
one present, else `None`. -/
def get_value (p : PayloadItem) : Option PyValue :=
  match p.str with
  | some s => some (.str s)
  | none =>
  match p.uint with
  | some n => some (.uint n)
  | none =>
  match p.sint with
  | some i => some (.sint i)
  | none =>
  match p.float with
  | some b => some (.float b)
  | none =>
  match p.bool with
  | some b => some (.bool b)
  | none => none

/-- Read `n` bytes at offset `cur`, or `none` past end-of-data (a short
read makes the generated parser raise EOF). -/
def readBytes (pl : List Nat) (cur n : Nat) : Option (List Nat) :=
  if cur + n ≤ pl.length then some ((pl.drop cur).take n) else none

/-- Little-endian value of a byte list. -/
def leVal : List Nat → Nat
  | [] => 0
  | b :: rest => b + 256 * leVal rest

/-- Two's-complement reading of an unsigned `w`-byte value. -/
def toSigned (w n : Nat) : Int :=
  if n < 2 ^ (8 * w - 1) then (n : Int) else (n : Int) - 2 ^ (8 * w)

/-- Integer width in bytes declared by a `tyle` field (8/16/32/64 bit). -/
def tyleIntWidth : Nat → Option Nat
  | 1 => some 1
  | 2 => some 2
  | 3 => some 4
  | 4 => some 8
  | _ => none

/-- Float width in bytes declared by a `tyle` field (32/64 bit). -/
def tyleFloatWidth : Nat → Option Nat
  | 3 => some 4
  | 4 => some 8
  | _ => none

/-- Modelled from the spec: decode the 4-byte little-endian type-info word
into its flag fields. -/
def decodeTypeInfo (b : List Nat) : TypeInfo :=
  { tyle := b.getD 0 0 % 16
  , boolFlag := b.getD 0 0 / 16 % 2 == 1
  , sintFlag := b.getD 0 0 / 32 % 2 == 1
  , uintFlag := b.getD 0 0 / 64 % 2 == 1
  , flotFlag := b.getD 0 0 / 128 % 2 == 1
  , strg := b.getD 1 0 / 2 % 2 == 1 }

/-- Modelled from the spec: the conditional string field — when the STRG
flag is set, read a 16-bit little-endian length then that many data
bytes. -/
def readStrField (pl : List Nat) (cur : Nat) (ti : TypeInfo) :
    Except PyExn (Option SizedString × Nat) :=
  if ti.strg then
    match readBytes pl cur 2 with
    | none => .error .eofError
    | some lb =>
      match readBytes pl (cur + 2) (leVal lb) with
      | none => .error .eofError
      | some d => .ok (some ⟨leVal lb, d⟩, cur + 2 + leVal lb)
  else .ok (none, cur)

/-- Modelled from the spec: the conditional unsigned-integer field, whose
width is declared by `tyle`. -/
def readUintField (pl : List Nat) (cur : Nat) (ti : TypeInfo) :
    Except PyExn (Option Nat × Nat) :=
  if ti.uintFlag then
    match tyleIntWidth ti.tyle with
    | none => .error .parseError
    | some w =>
      match readBytes pl cur w with
      | none => .error .eofError
      | some d => .ok (some (leVal d), cur + w)
  else .ok (none, cur)

/-- Modelled from the spec: the conditional signed-integer field
(two's-complement, width declared by `tyle`). -/
def readSintField (pl : List Nat) (cur : Nat) (ti : TypeInfo) :
    Except PyExn (Option Int × Nat) :=
  if ti.sintFlag then
    match tyleIntWidth ti.tyle with
    | none => .error .parseError
    | some w =>
      match readBytes pl cur w with
      | none => .error .eofError
      | some d => .ok (some (toSigned w (leVal d)), cur + w)
  else .ok (none, cur)

/-- Modelled from the spec: the conditional float field (raw bits, width
declared by `tyle`). -/
def readFloatField (pl : List Nat) (cur : Nat) (ti : TypeInfo) :
    Except PyExn (Option Nat × Nat) :=
  if ti.flotFlag then
    match tyleFloatWidth ti.tyle with
    | none => .error .parseError
    | some w =>
      match readBytes pl cur w with
      | none => .error .eofError
      | some d => .ok (some (leVal d), cur + w)
  else .ok (none, cur)

/-- Modelled from the spec: the conditional one-byte boolean field. -/
def readBoolField (pl : List Nat) (cur : Nat) (ti : TypeInfo) :
    Except PyExn (Option Nat × Nat) :=
  if ti.boolFlag then
    match readBytes pl cur 1 with
    | none => .error .eofError
    | some d => .ok (some (leVal d), cur + 1)
  else .ok (none, cur)

/-- Modelled from the spec: `PayloadItem.from_io` of the generated parser
(not under `src/`) — read the 4-byte type-info word at `cur`, then each
conditional value field in sequence; return the item and the new cursor,
or the exception the generated parser raises. -/
def PayloadItem.from_io (pl : List Nat) (cur : Nat) :
    Except PyExn (PayloadItem × Nat) :=
  match readBytes pl cur 4 with
  | none => .error .eofError
  | some tb =>
    match readStrField pl (cur + 4) (decodeTypeInfo tb) with
    | .error e => .error e
    | .ok (sv, c1) =>
      match readUintField pl c1 (decodeTypeInfo tb) with
      | .error e => .error e
      | .ok (uv, c2) =>
        match readSintField pl c2 (decodeTypeInfo tb) with
        | .error e => .error e
        | .ok (iv, c3) =>
          match readFloatField pl c3 (decodeTypeInfo tb) with
          | .error e => .error e
          | .ok (fv, c4) =>
            match readBoolField pl c4 (decodeTypeInfo tb) with
            | .error e => .error e
            | .ok (bv, c5) => .ok (⟨decodeTypeInfo tb, sv, uv, iv, fv, bv⟩, c5)

/-- Unwrap a `SizedString` to its data bytes, exactly as
`parse_payload`'s `isinstance(value, PayloadItem.SizedString)` branch
(dltfile.py lines 49–50) does. -/
def unwrapValue : PyValue → PayloadValue
  | .str s => .str s.data
  | .uint n => .uint n
  | .sint i => .sint i
  | .float b => .float b
  | .bool b => .bool b

/-- Embeds the per-item body of `parse_payload`'s loop (dltfile.py lines
45–56): take the item's value (`ok none` when `get_value` found none, the
caller then logs and returns `None`), unwrap a sized string, and for a
string item check and strip the trailing NUL — `value[-1]` on an empty
value raises `IndexError`, `assert value[-1] == 0` raises
`AssertionError` on a missing terminator. -/
def stepValue (item : PayloadItem) : Except PyExn (Option PayloadValue) :=
  match get_value item with
  | none => .ok none
  | some rv =>
    let v := unwrapValue rv
    if item.plt.strg then
      match v with
      | .str d =>
        match d.getLast? with
        | none => .error .indexError
        | some b => if b = 0 then .ok (some (.str d.dropLast)) else .error .assertionError
      | _ => .error .typeError
    else .ok (some v)

/-- Outcome of `parse_payload`: a decoded item list, the `None` return
(with the byte offset passed to `logger.error`), or a propagating Python
exception. -/
inductive ParsePayloadResult where
  | ok (items : List PayloadValue)
  | errNone (offset : Nat)
  | exn (e : PyExn)
  deriving DecidableEq

/-- Prepend a successfully decoded item to the result of decoding the
rest of the payload (errors pass through, as the Python loop discards its
accumulator on the `return None` and exception paths). -/
def consRes (v : PayloadValue) : ParsePayloadResult → ParsePayloadResult
  | .ok vs => .ok (v :: vs)
  | r => r

/-- Embeds the `while s.tell() < len(pl)` loop of `parse_payload`
(dltfile.py lines 42–57), fuel-structured; each successful item consumes
at least 4 bytes, so the fuel `parse_payload` passes never runs out. -/
def parsePayloadGo (pl : List Nat) : Nat → Nat → ParsePayloadResult
  | 0, cur => if cur < pl.length then .exn .outOfFuel else .ok []
  | fuel + 1, cur =>
    if cur < pl.length then
      match PayloadItem.from_io pl cur with
      | .error e => .exn e
      | .ok (item, nc) =>
        match stepValue item with
        | .error e => .exn e
        | .ok none => .errNone cur
        | .ok (some v) => consRes v (parsePayloadGo pl fuel nc)
    else .ok []

/-- Embeds `parse_payload` (dltfile.py lines 39–57). -/
def parse_payload (pl : List Nat) : ParsePayloadResult :=
  parsePayloadGo pl (pl.length + 1) 0

/-- Embeds the `DltMessage.payload` property (dltfile.py lines 99–103) as
one access step over the message's `_payload_cache` state: given the
current cache and the raw payload bytes, return (result as seen by the
caller, new cache, whether `parse_payload` was invoked). A `None` return
of `parse_payload` is stored as `None` — indistinguishable from an unset
cache — and an exception propagates before the cache is assigned. -/
def payloadProp (cache : Option (List PayloadValue)) (raw : List Nat) :
    Except PyExn (Option (List PayloadValue)) × Option (List PayloadValue) × Bool :=
  match cache with
  | some l => (.ok (some l), some l, false)
  | none =>
    match parse_payload raw with
    | .ok vs => (.ok (some vs), some vs, true)
    | .errNone _ => (.ok none, none, true)
    | .exn e => (.error e, none, true)

/-- Embeds a `DltMessage` after `__init__`/`loadn` (dltfile.py lines
59–88): app/context ids as NUL-stripped byte strings (`None` when no
extended header was present), the two timestamps as exact rationals, the
verbosity flag, and the raw payload bytes. The `_payload_cache` state is
modelled separately by `payloadProp`. -/
structure DltMessage where
  app : Option (List Nat)
  ctx : Option (List Nat)
  ts : Option ℚ
  date : ℚ
  verbose : Option Bool
  raw_payload : List Nat
  deriving DecidableEq

/-- The extended header as `raw.get_extended()` returns it: 4 NUL-padded
app-id bytes, 4 NUL-padded context-id bytes, and the verbosity flag. -/
structure ExtendedHeader where
  app : List Nat
  ctx : List Nat
  verbose : Bool
  deriving DecidableEq

/-- The basic (standard) header as `raw.get_basic()` returns it: only the
optional monotonic timestamp field `tmsp` matters to the claims. -/
structure BasicHeader where
  tmsp : Option Nat
  deriving DecidableEq

/-- The storage header as `raw.get_storage()` returns it: seconds and
sub-second (millisecond) timestamp fields. -/
structure StorageHeader where
  ts_sec : Nat
  ts_msec : Nat
  deriving DecidableEq

/-- The record a reader hands to `DltMessage.loadn`: optional extended
header, basic header, storage header, and the payload bytes. -/
structure RawRecord where
  ehdr : Option ExtendedHeader
  bhdr : BasicHeader
  shdr : StorageHeader
  payload : List Nat
  deriving DecidableEq

/-- Embeds `DltMessage.loadn` (dltfile.py lines 71–88): app/ctx are the
extended header's ids with every NUL byte removed (`replace(b'\0', b'')`)
when the extended header is present; `ts` is set to `1e-4 * tmsp` only
when `tmsp` is present and truthy (`if ts:` — a zero timestamp leaves
`ts = None`); `date` is `ts_sec + ts_msec * 1e-3`. Python float
arithmetic is modelled as exact rational arithmetic. -/
def DltMessage.loadn (raw : RawRecord) : DltMessage :=
  { app := raw.ehdr.map fun e => e.app.filter fun b => b != 0
  , ctx := raw.ehdr.map fun e => e.ctx.filter fun b => b != 0
  , verbose := raw.ehdr.map fun e => e.verbose
  , ts := match raw.bhdr.tmsp with
      | none => none
      | some t => if t = 0 then none else some ((1 / 10000 : ℚ) * t)
  , date := (raw.shdr.ts_sec : ℚ) + (raw.shdr.ts_msec : ℚ) * (1 / 1000)
  , raw_payload := raw.payload }

/-- One (app, ctx) filter pair; `none` in a component is the wildcard
(`None` in Python). -/
abbrev FilterPair : Type := Option (List Nat) × Option (List Nat)

/-- Embeds the per-pair condition of `DltMessage.match` (dltfile.py line
95): `(app is None or self.app == app) and (ctx is None or self.ctx ==
ctx)`. -/
def pairMatch (m : DltMessage) (p : FilterPair) : Bool :=
  (match p.1 with
   | none => true
   | some a => m.app == some a) &&
  (match p.2 with
   | none => true
   | some c => m.ctx == some c)

/-- Embeds `DltMessage.match` (dltfile.py lines 93–97): scan the filter
list and return `True` at the first pair matching on both fields, `False`
when the list is exhausted — in particular `False` on an empty list. -/
def DltMessage.matches (m : DltMessage) : List FilterPair → Bool
  | [] => false
  | p :: rest => if pairMatch m p then true else m.matches rest

/-- Embeds `DltReader.__iter__` (dltfile.py lines 142–149) over the
sequence of messages the native reader delivers through
`get_next_message` before EOF: `if not ret.verbose: continue` skips every
message whose `verbose` field is `False` or `None`, so only
`verbose = True` messages are yielded. -/
def dltReaderIter : List DltMessage → List DltMessage
  | [] => []
  | m :: rest =>
    if m.verbose = some true then m :: dltReaderIter rest else dltReaderIter rest

/-- The 4-byte DLT storage-header signature `b'DLT\x01'`. -/
def dltSignature : List Nat := [68, 76, 84, 1]

/-- Whether the 4 bytes at offset `q` are the storage-header signature
(`self.fd.read(4) == b'DLT\x01'`; a short read never equals the 4-byte
literal). -/
def isSigAt (file : List Nat) (q : Nat) : Bool :=
  (file.drop q).take 4 == dltSignature

/-- Embeds the resynchronization scan of `DltFile.get_next_message`
(dltfile.py lines 171–180), fuel-structured: advance byte-by-byte while
`start_offset < self._f_len`, returning the first offset whose 4 bytes
are the signature, or `none` when the scan reaches the end of the file. -/
def findSigGo (file : List Nat) : Nat → Nat → Option Nat
  | 0, _ => none
  | fuel + 1, q =>
    if q < file.length then
      if isSigAt file q then some q else findSigGo file fuel (q + 1)
    else none

/-- The resynchronization scan started at offset `q` (fuel covers every
remaining position). -/
def findSignature (file : List Nat) (q : Nat) : Option Nat :=
  findSigGo file (file.length + 1 - q) q

/-- Embeds `DltFile.get_next_message` (dltfile.py lines 163–196),
fuel-structured. `StoredMessage.from_io` together with the
`DltMessage(sm, ...)` construction is abstracted as the `parse`
parameter: `parse file off` returns the decoded message and the file
offset after the record, or `none` when the parse raises. The loop: stop
at end-of-file; on a parse failure at `off`, scan from `off + 1` for the
next signature and retry there (end the iteration when none is found); on
success, a non-verbose message is skipped, a verbose one is checked
against the filters when they are configured (`filters is not None`),
and a surviving message is returned along with the new file offset. -/
def getNextMsgGo (parse : List Nat → Nat → Option (DltMessage × Nat))
    (file : List Nat) (filters : Option (List FilterPair)) :
    Nat → Nat → Option (DltMessage × Nat)
  | 0, _ => none
  | fuel + 1, off =>
    if off = file.length then none
    else
      match parse file off with
      | none =>
        match findSignature file (off + 1) with
        | some q => getNextMsgGo parse file filters fuel q
        | none => none
      | some (m, newOff) =>
        if m.verbose = some true then
          match filters with
          | none => some (m, newOff)
          | some fl =>
            if m.matches fl then some (m, newOff)
            else getNextMsgGo parse file filters fuel newOff
        else getNextMsgGo parse file filters fuel newOff

/-- One `get_next_message` call starting at file offset `off` (fresh fuel,
as the Python loop is bounded by the file length). -/
def getNextMsg (parse : List Nat → Nat → Option (DltMessage × Nat))
    (file : List Nat) (filters : Option (List FilterPair)) (off : Nat) :
    Option (DltMessage × Nat) :=
  getNextMsgGo parse file filters (file.length + 1) off

/-- Embeds `DltFile.__iter__` (dltfile.py lines 198–203), fuel-structured:
repeatedly call `get_next_message`, stopping at `None`. -/
def dltFileIterGo (parse : List Nat → Nat → Option (DltMessage × Nat))
    (file : List Nat) (filters : Option (List FilterPair)) :
    Nat → Nat → List DltMessage
  | 0, _ => []
  | fuel + 1, off =>
    match getNextMsg parse file filters off with
    | none => []
    | some (m, off') => m :: dltFileIterGo parse file filters fuel off'

/-- File-mode iteration from the start of the file. -/
def dltFileIter (parse : List Nat → Nat → Option (DltMessage × Nat))
    (file : List Nat) (filters : Option (List FilterPair)) : List DltMessage :=
  dltFileIterGo parse file filters (file.length + 1) 0

theorem readStrField_mono {pl : List Nat} {cur : Nat} {ti : TypeInfo}
    {sv : Option SizedString} {c' : Nat}
    (h : readStrField pl cur ti = .ok (sv, c')) : cur ≤ c' := by
  unfold readStrField at h
  split at h
  · split at h
    · exact absurd h (by simp)
    · split at h
      · exact absurd h (by simp)
      · simp only [Except.ok.injEq, Prod.mk.injEq] at h
        omega
  · simp only [Except.ok.injEq, Prod.mk.injEq] at h
    omega

theorem readUintField_mono {pl : List Nat} {cur : Nat} {ti : TypeInfo}
    {uv : Option Nat} {c' : Nat}
    (h : readUintField pl cur ti = .ok (uv, c')) : cur ≤ c' := by
  unfold readUintField at h
  split at h
  · split at h
    · exact absurd h (by simp)
    · split at h
      · exact absurd h (by simp)
      · simp only [Except.ok.injEq, Prod.mk.injEq] at h
        omega
  · simp only [Except.ok.injEq, Prod.mk.injEq] at h
    omega

theorem readSintField_mono {pl : List Nat} {cur : Nat} {ti : TypeInfo}
    {iv : Option Int} {c' : Nat}
    (h : readSintField pl cur ti = .ok (iv, c')) : cur ≤ c' := by
  unfold readSintField at h
  split at h
  · split at h
    · exact absurd h (by simp)
    · split at h
      · exact absurd h (by simp)
      · simp only [Except.ok.injEq, Prod.mk.injEq] at h
        omega
  · simp only [Except.ok.injEq, Prod.mk.injEq] at h
    omega

theorem readFloatField_mono {pl : List Nat} {cur : Nat} {ti : TypeInfo}
    {fv : Option Nat} {c' : Nat}
    (h : readFloatField pl cur ti = .ok (fv, c')) : cur ≤ c' := by
  unfold readFloatField at h
  split at h
  · split at h
    · exact absurd h (by simp)
    · split at h
      · exact absurd h (by simp)
      · simp only [Except.ok.injEq, Prod.mk.injEq] at h
        omega
  · simp only [Except.ok.injEq, Prod.mk.injEq] at h
    omega

theorem readBoolField_mono {pl : List Nat} {cur : Nat} {ti : TypeInfo}
    {bv : Option Nat} {c' : Nat}
    (h : readBoolField pl cur ti = .ok (bv, c')) : cur ≤ c' := by
  unfold readBoolField at h
  split at h
  · split at h
    · exact absurd h (by simp)
    · simp only [Except.ok.injEq, Prod.mk.injEq] at h
      omega
  · simp only [Except.ok.injEq, Prod.mk.injEq] at h
    omega

/-- A successfully parsed payload item consumes at least its 4 type-info
bytes, so the payload loop always makes progress. -/
theorem from_io_progress {pl : List Nat} {cur : Nat} {item : PayloadItem} {nc : Nat}
    (h : PayloadItem.from_io pl cur = .ok (item, nc)) : cur + 4 ≤ nc := by
  unfold PayloadItem.from_io at h
  split at h
  · exact absurd h (by simp)
  · split at h
    · exact absurd h (by simp)
    · rename_i sv c1 hs
      split at h
      · exact absurd h (by simp)
      · rename_i uv c2 hu
        split at h
        · exact absurd h (by simp)
        · rename_i iv c3 hi
          split at h
          · exact absurd h (by simp)
          · rename_i fv c4 hf
            split at h
            · exact absurd h (by simp)
            · rename_i bv c5 hb
              simp only [Except.ok.injEq, Prod.mk.injEq] at h
              have m1 := readStrField_mono hs
              have m2 := readUintField_mono hu
              have m3 := readSintField_mono hi
              have m4 := readFloatField_mono hf
              have m5 := readBoolField_mono hb
              omega

/-- The payload loop's result does not depend on the fuel once the fuel
covers the remaining bytes. -/
theorem parsePayloadGo_congr (pl : List Nat) :
    ∀ f1 f2 cur, pl.length + 1 - cur ≤ f1 → pl.length + 1 - cur ≤ f2 →
      parsePayloadGo pl f1 cur = parsePayloadGo pl f2 cur := by
  intro f1
  induction f1 with
  | zero =>
    intro f2 cur h1 _
    have hc : ¬ cur < pl.length := by omega
    cases f2 with
    | zero => rfl
    | succ g => simp [parsePayloadGo, hc]
  | succ f ih =>
    intro f2 cur h1 h2
    cases f2 with
    | zero =>
      have hc : ¬ cur < pl.length := by omega
      simp [parsePayloadGo, hc]
    | succ g =>
      by_cases hc : cur < pl.length
      · simp only [parsePayloadGo, hc, if_true]
        cases hio : PayloadItem.from_io pl cur with
        | error e => rfl
        | ok pr =>
          obtain ⟨item, nc⟩ := pr
          have hprog := from_io_progress hio
          cases hsv : stepValue item with
          | error e => simp [hsv]
          | ok ov =>
            cases ov with
            | none => simp [hsv]
            | some v =>
              have hrec := ih g nc (by omega) (by omega)
              simp [hsv, hrec]
      · simp [parsePayloadGo, hc]

/-- Prepend an already-decoded prefix of items to a payload-loop result
(errors pass through unchanged). -/
def liftRes (vs : List PayloadValue) : ParsePayloadResult → ParsePayloadResult
  | .ok ws => .ok (vs ++ ws)
  | r => r

theorem liftRes_nil (r : ParsePayloadResult) : liftRes [] r = r := by
  cases r <;> simp [liftRes]

theorem liftRes_consRes (vs : List PayloadValue) (v : PayloadValue)
    (r : ParsePayloadResult) : liftRes vs (consRes v r) = liftRes (vs ++ [v]) r := by
  cases r <;> simp [liftRes, consRes]

/-- The offsets the `parse_payload` loop actually visits: 0, and after any
successfully decoded item, the cursor after that item. -/
inductive Reaches (pl : List Nat) : Nat → Prop
  | refl : Reaches pl 0
  | step {k nc : Nat} {item : PayloadItem} {v : PayloadValue} :
      Reaches pl k → k < pl.length →
      PayloadItem.from_io pl k = .ok (item, nc) →
      stepValue item = .ok (some v) → Reaches pl nc

/-- Running `parse_payload` equals decoding some prefix of items and then
continuing the loop from any reached offset. -/
theorem reaches_lift {pl : List Nat} {k : Nat} (h : Reaches pl k) :
    ∃ vs, parse_payload pl = liftRes vs (parsePayloadGo pl (pl.length + 1) k) := by
  induction h with
  | refl => exact ⟨[], (liftRes_nil _).symm⟩
  | step hr hk hio hsv ih =>
    rename_i k0 nc item v
    obtain ⟨vs, hvs⟩ := ih
    have hgo : parsePayloadGo pl (pl.length + 1) k0 =
        consRes v (parsePayloadGo pl pl.length nc) := by
      simp only [parsePayloadGo, hk, if_true, hio, hsv]
    have hprog := from_io_progress hio
    have hcong : parsePayloadGo pl pl.length nc =
        parsePayloadGo pl (pl.length + 1) nc :=
      parsePayloadGo_congr pl pl.length (pl.length + 1) nc (by omega) (by omega)
    exact ⟨vs ++ [v], by rw [hvs, hgo, hcong, liftRes_consRes]⟩

/-- A list whose last element is `b` is its `dropLast` followed by `[b]`. -/
theorem getLast?_decomp {l : List Nat} {b : Nat} (h : l.getLast? = some b) :
    l = l.dropLast ++ [b] := by
  induction l with
  | nil => simp at h
  | cons a t ih =>
    cases t with
    | nil =>
      have hab : a = b := by simpa using h
      simp [hab]
    | cons c u =>
      rw [List.getLast?_cons_cons] at h
      have ht := ih h
      calc a :: c :: u = a :: (c :: u) := rfl
        _ = a :: ((c :: u).dropLast ++ [b]) := by rw [← ht]
        _ = (a :: c :: u).dropLast ++ [b] := by simp

/-- When the STRG flag is set, a successful `readStrField` yields a
string. -/
theorem readStrField_strg {pl : List Nat} {cur : Nat} {ti : TypeInfo}
    {sv : Option SizedString} {c' : Nat} (hs : ti.strg = true)
    (h : readStrField pl cur ti = .ok (sv, c')) : ∃ s, sv = some s := by
  unfold readStrField at h
  rw [if_pos hs] at h
  split at h
  · exact absurd h (by simp)
  · split at h
    · exact absurd h (by simp)
    · simp only [Except.ok.injEq, Prod.mk.injEq] at h
      exact ⟨_, h.1.symm⟩

/-- A successfully parsed item with the STRG flag set carries a string
value. -/
theorem from_io_strg {pl : List Nat} {cur : Nat} {item : PayloadItem} {nc : Nat}
    (h : PayloadItem.from_io pl cur = .ok (item, nc))
    (hs : item.plt.strg = true) : ∃ s, item.str = some s := by
  unfold PayloadItem.from_io at h
  split at h
  · exact absurd h (by simp)
  · split at h
    · exact absurd h (by simp)
    · rename_i sv c1 hstr
      split at h
      · exact absurd h (by simp)
      · split at h
        · exact absurd h (by simp)
        · split at h
          · exact absurd h (by simp)
          · split at h
            · exact absurd h (by simp)
            · simp only [Except.ok.injEq, Prod.mk.injEq] at h
              obtain ⟨h1, _⟩ := h
              subst h1
              exact readStrField_strg hs hstr

/-- When the signature sits at `p2` and the scan starts no later than
`p2`, the scan finds a signature occurrence no later than `p2`. -/
theorem findSigGo_finds {file : List Nat} {p2 : Nat}
    (hsig : isSigAt file p2 = true) (hp2 : p2 < file.length) :
    ∀ fuel q, file.length + 1 ≤ fuel + q → q ≤ p2 →
      ∃ r, findSigGo file fuel q = some r ∧ q ≤ r ∧ r ≤ p2 := by
  intro fuel
  induction fuel with
  | zero =>
    intro q h hq
    omega
  | succ f ih =>
    intro q h hq
    have hql : q < file.length := by omega
    by_cases hs : isSigAt file q
    · exact ⟨q, by simp [findSigGo, hql, hs], Nat.le_refl q, hq⟩
    · have hqp : q < p2 := by
        rcases Nat.lt_or_ge q p2 with h' | h'
        · exact h'
        · have heq : q = p2 := Nat.le_antisymm hq h'
          rw [heq] at hs
          exact absurd hsig hs
      obtain ⟨r, hr, hlr, hrp⟩ := ih (q + 1) (by omega) (by omega)
      refine ⟨r, ?_, by omega, hrp⟩
      simp [findSigGo, hql, hs, hr]

/-- The resynchronization scan started at `q ≤ p2` finds an occurrence of
the signature no later than `p2`. -/
theorem findSignature_finds {file : List Nat} {p2 q : Nat}
    (hsig : isSigAt file p2 = true) (hp2 : p2 < file.length) (hq : q ≤ p2) :
    ∃ r, findSignature file q = some r ∧ q ≤ r ∧ r ≤ p2 := by
  unfold findSignature
  exact findSigGo_finds hsig hp2 _ q (by omega) hq

/-- With a configured-but-empty filter list, `get_next_message` never
returns a message: every decoded record fails `match` against `[]`. -/
theorem getNextMsgGo_empty_filters
    (parse : List Nat → Nat → Option (DltMessage × Nat)) (file : List Nat) :
    ∀ fuel off, getNextMsgGo parse file (some []) fuel off = none := by
  intro fuel
  induction fuel with
  | zero => intro off; rfl
  | succ f ih =>
    intro off
    by_cases he : off = file.length
    · simp [getNextMsgGo, he]
    · simp only [getNextMsgGo, he, if_false]
      cases hp : parse file off with
      | none =>
        cases hq : findSignature file (off + 1) with
        | some q => simp [ih]
        | none => simp
      | some pr =>
        obtain ⟨m, newOff⟩ := pr
        by_cases hv : m.verbose = some true
        · simp [hv, DltMessage.matches, ih]
        · simp [hv, ih]

/-- Every message `get_next_message` returns is verbose. -/
theorem getNextMsgGo_verbose
    (parse : List Nat → Nat → Option (DltMessage × Nat)) (file : List Nat)
    (filters : Option (List FilterPair)) :
    ∀ fuel off m off', getNextMsgGo parse file filters fuel off = some (m, off') →
      m.verbose = some true := by
  intro fuel
  induction fuel with
  | zero =>
    intro off m off' h
    exact absurd h (by simp [getNextMsgGo])
  | succ f ih =>
    intro off m off' h
    by_cases he : off = file.length
    · simp [getNextMsgGo, he] at h
    · simp only [getNextMsgGo, he, if_false] at h
      cases hp : parse file off with
      | none =>
        rw [hp] at h
        cases hq : findSignature file (off + 1) with
        | some q =>
          rw [hq] at h
          exact ih q m off' h
        | none =>
          rw [hq] at h
          exact absurd h (by simp)
      | some pr =>
        obtain ⟨m0, newOff⟩ := pr
        rw [hp] at h
        by_cases hv : m0.verbose = some true
        · simp only [hv, if_true] at h
          cases hf : filters with
          | none =>
            rw [hf] at h
            simp only [Option.some.injEq, Prod.mk.injEq] at h
            rw [← h.1]
            exact hv
          | some fl =>
            rw [hf] at h ih
            by_cases hm : m0.matches fl = true
            · simp only [hm, if_true, Option.some.injEq, Prod.mk.injEq] at h
              rw [← h.1]
              exact hv
            · simp [hm] at h
              exact ih newOff m off' h
        · simp only [hv, if_false] at h
          exact ih newOff m off' h

/-- Every message file-mode iteration yields is verbose. -/
theorem dltFileIterGo_verbose
    (parse : List Nat → Nat → Option (DltMessage × Nat)) (file : List Nat)
    (filters : Option (List FilterPair)) :
    ∀ fuel off m, m ∈ dltFileIterGo parse file filters fuel off →
      m.verbose = some true := by
  intro fuel
  induction fuel with
  | zero =>
    intro off m h
    simp [dltFileIterGo] at h
  | succ f ih =>
    intro off m h
    unfold dltFileIterGo at h
    cases hn : getNextMsg parse file filters off with
    | none =>
      rw [hn] at h
      simp at h
    | some pr =>
      obtain ⟨m0, off'⟩ := pr
      rw [hn] at h
      rcases List.mem_cons.mp h with rfl | h'
      · exact getNextMsgGo_verbose parse file filters _ off m off' hn
      · exact ih off' m h'

/-- Starting anywhere in a region where every parse attempt fails, with
the next signature at `p2` where a verbose record parses to the end of
the file, `get_next_message` resynchronizes and returns that record. -/
theorem getNextMsgGo_resync
    (parse : List Nat → Nat → Option (DltMessage × Nat)) (file : List Nat)
    {m2 : DltMessage} {r1len p2 : Nat}
    (hg : ∀ q, q < p2 → r1len ≤ q → parse file q = none)
    (hsig : isSigAt file p2 = true) (hp2 : p2 < file.length)
    (h2 : parse file p2 = some (m2, file.length)) (hv2 : m2.verbose = some true) :
    ∀ fuel off, r1len ≤ off → off ≤ p2 → p2 - off < fuel →
      getNextMsgGo parse file none fuel off = some (m2, file.length) := by
  intro fuel
  induction fuel with
  | zero =>
    intro off _ _ h3
    omega
  | succ f ih =>
    intro off h1 hle h3
    have hne : ¬ off = file.length := by omega
    rcases Nat.lt_or_ge off p2 with hlt | hge
    · have hpq : parse file off = none := hg off hlt h1
      obtain ⟨r, hr, hlr, hrp⟩ :=
        findSignature_finds hsig hp2 (show off + 1 ≤ p2 by omega)
      have hrec := ih r (by omega) hrp (by omega)
      simp only [getNextMsgGo, hne, if_false, hpq, hr]
      exact hrec
    · have heq : off = p2 := Nat.le_antisymm hle hge
      subst heq
      simp [getNextMsgGo, hne, h2, hv2]

/-- A single-record demonstration parse function for the file-mode
machinery: a record is the 4-byte signature, one verbosity byte and one
payload byte (6 bytes in total). -/
def demoParse (file : List Nat) (off : Nat) : Option (DltMessage × Nat) :=
  if isSigAt file off ∧ off + 6 ≤ file.length then
    some (⟨none, none, none, 0,
           some (file.getD (off + 4) 0 == 1), [file.getD (off + 5) 0]⟩, off + 6)
  else none

def demoFileNonVerbose : List Nat := [68, 76, 84, 1, 0, 7]

def demoFileVerbose : List Nat := [68, 76, 84, 1, 1, 7]

/-- A verbose record, three garbage bytes, then a second verbose record
headed by the storage signature. -/
def demoGarbageFile : List Nat :=
  [68, 76, 84, 1, 1, 7, 0, 0, 0, 68, 76, 84, 1, 1, 9]

def demoMsg1 : DltMessage := ⟨none, none, none, 0, some true, [7]⟩

def demoMsg2 : DltMessage := ⟨none, none, none, 0, some true, [9]⟩

def demoMsgNV : DltMessage := ⟨none, none, none, 0, some false, [7]⟩

def demoMsgA : DltMessage :=
  ⟨some [65, 80, 80, 49], some [67, 84, 88, 49], none, 0, some true, []⟩

/-- The per-pair filter condition holds iff each field is a wildcard or
equals the message's id. -/
theorem pairMatch_iff (m : DltMessage) (p : FilterPair) :
    pairMatch m p = true ↔
      (p.1 = none ∨ m.app = p.1) ∧ (p.2 = none ∨ m.ctx = p.2) := by
  obtain ⟨a, c⟩ := p
  cases a <;> cases c <;> simp [pairMatch]

/-- C1 counterexample: `DltMessage.match` applied to an empty filter list
returns `False`, not `True`, here on a concrete message, so an
empty-but-configured filter set keeps no message. -/
theorem C1_counterexample : demoMsgA.matches [] = false := rfl

/-- C1 (amended): `DltMessage.match` on an empty filter list returns
`False` for every message, and consequently file-mode reading with a
configured-but-empty filter list yields no messages at all; all messages
are returned only when `filters` is `None` (filtering not configured). -/
theorem C1_amended :
    (∀ m : DltMessage, m.matches [] = false) ∧
    (∀ (parse : List Nat → Nat → Option (DltMessage × Nat)) (file : List Nat),
      dltFileIter parse file (some []) = []) := by
  constructor
  · intro m
    rfl
  · intro parse file
    have h := getNextMsgGo_empty_filters parse file (file.length + 1) 0
    unfold dltFileIter
    simp only [dltFileIterGo, getNextMsg, h]

/-- C2: stream-mode iteration (`DltReader.__iter__`) yields only messages
whose `verbose` field is `True`; messages with `verbose` `False` or unset
(`None`, no extended header) are always skipped, whatever sequence of
messages the native reader produced from the byte stream and the filter
configuration. -/
theorem C2_stream_verbose_only (msgs : List DltMessage) (m : DltMessage)
    (hm : m ∈ dltReaderIter msgs) : m.verbose = some true := by
  induction msgs with
  | nil => simp [dltReaderIter] at hm
  | cons a rest ih =>
    by_cases hv : a.verbose = some true
    · rw [show dltReaderIter (a :: rest) = a :: dltReaderIter rest from by
        simp [dltReaderIter, hv]] at hm
      rcases List.mem_cons.mp hm with rfl | h'
      · exact hv
      · exact ih h'
    · rw [show dltReaderIter (a :: rest) = dltReaderIter rest from by
        simp [dltReaderIter, hv]] at hm
      exact ih hm

/-- C2 witness at a concrete one-message stream. -/
theorem C2_verbose_witness : demoMsg1.verbose = some true :=
  C2_stream_verbose_only [demoMsg1] demoMsg1 (by decide)

/-- C3 counterexample: a file holding a single well-formed non-verbose
record and no configured filter; file-mode iteration yields nothing,
although the claim says a non-verbose message is still yielded unless the
filter set excludes it. -/
theorem C3_counterexample :
    demoParse demoFileNonVerbose 0 = some (demoMsgNV, 6) ∧
    demoMsgNV.verbose = some false ∧
    dltFileIter demoParse demoFileNonVerbose none = [] := by
  refine ⟨by decide, rfl, by decide⟩

/-- C3 (amended): file-mode iteration is not verbosity-agnostic — exactly
like stream mode it yields only messages with `verbose = True`
(`if msg.verbose:` in `DltFile.get_next_message`), for every parse
function, file and filter configuration. -/
theorem C3_file_verbose_only (parse : List Nat → Nat → Option (DltMessage × Nat))
    (file : List Nat) (filters : Option (List FilterPair)) (m : DltMessage)
    (hm : m ∈ dltFileIter parse file filters) : m.verbose = some true :=
  dltFileIterGo_verbose parse file filters (file.length + 1) 0 m hm

/-- C3 witness at a concrete one-record file. -/
theorem C3_verbose_witness : demoMsg1.verbose = some true :=
  C3_file_verbose_only demoParse demoFileVerbose none demoMsg1 (by decide)

/-- C4: resynchronization in file mode. For every parse function, file and
offsets such that a record parses at offset 0 (consuming `r1len` bytes,
verbose), every parse attempt inside the garbage region `[r1len, p2)`
fails, and the storage signature sits at `p2` where a second verbose
record parses exactly to the end of the file, file-mode iteration decodes
both records: after the failure the reader scans byte-by-byte from the
failed offset + 1 for the signature, discards exactly the skipped bytes,
resumes at the signature, and yields `[m1, m2]` (no record is re-parsed
or duplicated). -/
theorem C4_resync_decodes_both
    (parse : List Nat → Nat → Option (DltMessage × Nat)) (file : List Nat)
    (m1 m2 : DltMessage) (r1len p2 : Nat)
    (h1 : parse file 0 = some (m1, r1len)) (hv1 : m1.verbose = some true)
    (h0 : 0 < r1len) (hle : r1len ≤ p2) (hp2 : p2 < file.length)
    (hg : ∀ q, q < p2 → r1len ≤ q → parse file q = none)
    (hsig : isSigAt file p2 = true)
    (h2 : parse file p2 = some (m2, file.length)) (hv2 : m2.verbose = some true) :
    dltFileIter parse file none = [m1, m2] := by
  have hlen : 2 ≤ file.length := by omega
  have gn0 : getNextMsg parse file none 0 = some (m1, r1len) := by
    unfold getNextMsg
    have hne : ¬ (0 = file.length) := by omega
    simp [getNextMsgGo, hne, h1, hv1]
  have gn1 : getNextMsg parse file none r1len = some (m2, file.length) := by
    unfold getNextMsg
    exact getNextMsgGo_resync parse file hg hsig hp2 h2 hv2 (file.length + 1) r1len
      (Nat.le_refl _) hle (by omega)
  have gn2 : getNextMsg parse file none file.length = none := by
    unfold getNextMsg
    simp [getNextMsgGo]
  obtain ⟨l, hl⟩ : ∃ l, file.length = l + 1 + 1 := ⟨file.length - 2, by omega⟩
  unfold dltFileIter
  rw [show file.length + 1 = l + 1 + 1 + 1 from by omega]
  simp only [dltFileIterGo, gn0, gn1, gn2]

/-- C4 witness: a concrete file — verbose record, three garbage bytes,
then a signature-headed verbose record — decodes to both messages. -/
theorem C4_resync_witness :
    dltFileIter demoParse demoGarbageFile none = [demoMsg1, demoMsg2] :=
  C4_resync_decodes_both demoParse demoGarbageFile demoMsg1 demoMsg2 6 9
    (by decide) (by decide) (by decide) (by decide) (by decide)
    (by decide) (by decide) (by decide) (by decide)

/-- For a string item, the per-item body reduces to the NUL check on the
string's data (dltfile.py lines 53–55). -/
theorem stepValue_strg {item : PayloadItem} {s : SizedString}
    (hstrg : item.plt.strg = true) (hs : item.str = some s) :
    stepValue item =
      match s.data.getLast? with
      | none => .error .indexError
      | some b =>
        if b = 0 then .ok (some (.str s.data.dropLast))
        else .error .assertionError := by
  have hgv : get_value item = some (.str s) := by
    unfold get_value
    rw [hs]
  simp only [stepValue, hgv, unwrapValue, hstrg, if_true]

/-- C5: string items and the NUL terminator. For every payload item parsed
with the STRG flag set: a value the decoder exposes is exactly the item's
data with the trailing NUL terminator stripped (the wire data is the
exposed value followed by the NUL byte), and when the item's data does
not end in a NUL byte the decode fails with an exception (the
`assert value[-1] == 0` in `parse_payload`, realizing the spec's
`MalformedString` error) instead of silently passing the value through. -/
theorem C5_string_nul_stripped {pl : List Nat} {cur nc : Nat} {item : PayloadItem}
    (hio : PayloadItem.from_io pl cur = .ok (item, nc))
    (hstrg : item.plt.strg = true) :
    (∀ d, stepValue item = .ok (some (.str d)) →
      ∃ s, item.str = some s ∧ s.data = d ++ [0]) ∧
    (∀ s, item.str = some s → s.data.getLast? ≠ some 0 →
      ∃ e, stepValue item = .error e) := by
  obtain ⟨s0, hs0⟩ := from_io_strg hio hstrg
  have hstep := stepValue_strg hstrg hs0
  constructor
  · intro d hd
    refine ⟨s0, hs0, ?_⟩
    rw [hstep] at hd
    cases hl : s0.data.getLast? with
    | none =>
      rw [hl] at hd
      simp at hd
    | some b =>
      rw [hl] at hd
      by_cases hb : b = 0
      · subst hb
        simp at hd
        subst hd
        exact getLast?_decomp hl
      · simp [hb] at hd
  · intro s hs hne
    have hss : s = s0 := by
      rw [hs] at hs0
      exact Option.some.inj hs0
    subst hss
    rw [hstep]
    cases hl : s.data.getLast? with
    | none => exact ⟨.indexError, rfl⟩
    | some b =>
      have hb : ¬ b = 0 := fun hb0 => hne (hb0 ▸ hl)
      exact ⟨.assertionError, by simp [hb]⟩

def demoStrPayload : List Nat := [0, 2, 0, 0, 3, 0, 65, 66, 0]

def demoStrItem : PayloadItem :=
  ⟨⟨0, false, false, false, false, true⟩, some ⟨3, [65, 66, 0]⟩,
   none, none, none, none⟩

/-- C5 witness: the wire string "AB\x00" is exposed as "AB", its data
being the exposed value plus the NUL terminator. -/
theorem C5_string_witness :
    ∃ s, demoStrItem.str = some s ∧ s.data = [65, 66] ++ [0] :=
  (@C5_string_nul_stripped demoStrPayload 0 9 demoStrItem rfl rfl).1 [65, 66] rfl

/-- C6: an unknown type tag aborts the whole payload. Whenever the decode
loop reaches an offset `k` whose item parses but matches none of the five
recognized kinds (`get_value` finds no value attribute), `parse_payload`
returns `None` after logging the byte offset `k` (modelled as
`.errNone k`), and no list of items — in particular no successfully
decoded prefix — is ever returned to the caller. -/
theorem C6_unknown_tag_aborts {pl : List Nat} {k nc : Nat} {item : PayloadItem}
    (hr : Reaches pl k) (hk : k < pl.length)
    (hio : PayloadItem.from_io pl k = .ok (item, nc))
    (hgv : get_value item = none) :
    parse_payload pl = .errNone k ∧ ∀ vs, parse_payload pl ≠ .ok vs := by
  obtain ⟨vs0, hvs⟩ := reaches_lift hr
  have hsv : stepValue item = .ok none := by
    unfold stepValue
    rw [hgv]
  have hgo : parsePayloadGo pl (pl.length + 1) k = .errNone k := by
    simp only [parsePayloadGo, hk, if_true, hio, hsv]
  rw [hgo] at hvs
  constructor
  · rw [hvs]
    rfl
  · intro vs' hcontra
    rw [hvs] at hcontra
    exact absurd hcontra (by simp [liftRes])

def demoMixedPayload : List Nat := [16, 0, 0, 0, 1, 0, 0, 0, 0]

def demoBoolItem : PayloadItem :=
  ⟨⟨0, true, false, false, false, false⟩, none, none, none, none, some 1⟩

def demoEmptyItem : PayloadItem :=
  ⟨⟨0, false, false, false, false, false⟩, none, none, none, none, none⟩

/-- C6 witness: a valid bool item followed by an all-zero type-info word —
decoding aborts with the offset 5 of the unknown item and no prefix. -/
theorem C6_unknown_tag_witness : parse_payload demoMixedPayload = .errNone 5 :=
  (@C6_unknown_tag_aborts demoMixedPayload 5 9 demoEmptyItem
    (@Reaches.step demoMixedPayload 0 5 demoBoolItem (PayloadValue.bool 1)
      Reaches.refl (by decide) rfl rfl)
    (by decide) rfl rfl).1

/-- C7 counterexample: a payload whose parse returns `None` (unknown tag)
is re-parsed on every access — the cache stays unset, so `parse_payload`
is invoked by both of two consecutive accesses, contradicting "invoked at
most once per message, for every outcome of the parse". -/
theorem C7_counterexample :
    (payloadProp none [0, 0, 0, 0]).2.2 = true ∧
    (payloadProp (payloadProp none [0, 0, 0, 0]).2.1 [0, 0, 0, 0]).2.2 = true := by
  constructor <;> rfl

/-- C7 (amended): payload decoding is lazy and memoized only for a
successful parse: when `parse_payload` returns a list, the first access
invokes the parse, stores the list, and every later access returns the
identical list without invoking the parse again; when the parse returns
`None` or raises, nothing is cached and each access re-invokes the
parse. -/
theorem C7_memoized_on_success {raw : List Nat} {vs : List PayloadValue}
    (h : parse_payload raw = .ok vs) :
    payloadProp none raw = (.ok (some vs), some vs, true) ∧
    payloadProp (some vs) raw = (.ok (some vs), some vs, false) := by
  constructor
  · unfold payloadProp
    rw [h]
  · rfl

def demoBoolPayload : List Nat := [16, 0, 0, 0, 1]

/-- C7 witness: a successfully parsed bool payload is parsed on the first
access and cached. -/
theorem C7_memoized_witness :
    payloadProp none demoBoolPayload =
      (.ok (some [PayloadValue.bool 1]), some [PayloadValue.bool 1], true) :=
  (@C7_memoized_on_success demoBoolPayload [PayloadValue.bool 1] rfl).1

/-- C8: filter matching semantics. A filter list matches a message iff
some (app, ctx) pair in it matches on both fields, each field matching
when it is the wildcard `None` or equals the message's id exactly
(byte-for-byte, hence case-sensitively); and a loaded message's app/ctx
ids are the extended header's 4-byte ids with every NUL byte removed. -/
theorem C8_filter_match :
    (∀ (m : DltMessage) (fl : List FilterPair),
      m.matches fl = true ↔
        ∃ p, p ∈ fl ∧ (p.1 = none ∨ m.app = p.1) ∧ (p.2 = none ∨ m.ctx = p.2)) ∧
    (∀ (raw : RawRecord) (e : ExtendedHeader), raw.ehdr = some e →
      (DltMessage.loadn raw).app = some (e.app.filter fun b => b != 0) ∧
      (DltMessage.loadn raw).ctx = some (e.ctx.filter fun b => b != 0)) := by
  constructor
  · intro m fl
    induction fl with
    | nil => simp [DltMessage.matches]
    | cons p rest ih =>
      by_cases hp : pairMatch m p = true
      · constructor
        · intro _
          exact ⟨p, List.mem_cons_self p rest, (pairMatch_iff m p).mp hp⟩
        · intro _
          simp [DltMessage.matches, hp]
      · have hm : DltMessage.matches m (p :: rest) = DltMessage.matches m rest := by
          simp [DltMessage.matches, hp]
        rw [hm, ih]
        constructor
        · rintro ⟨q, hq, hc⟩
          exact ⟨q, List.mem_cons_of_mem p hq, hc⟩
        · rintro ⟨q, hq, hc⟩
          rcases List.mem_cons.mp hq with rfl | hq'
          · exact absurd ((pairMatch_iff m q).mpr hc) hp
          · exact ⟨q, hq', hc⟩
  · intro raw e he
    constructor <;> simp [DltMessage.loadn, he]

def demoRecE : RawRecord :=
  ⟨some ⟨[65, 80, 80, 0], [67, 84, 88, 0], true⟩, ⟨none⟩, ⟨0, 0⟩, []⟩

/-- C8 witness: an exact-app wildcard-ctx pair matches a concrete message,
and a concrete loaded record exposes its NUL-stripped app id. -/
theorem C8_filter_witness :
    demoMsgA.matches [(some [65, 80, 80, 49], none)] = true ∧
    (DltMessage.loadn demoRecE).app =
      some (List.filter (fun b => b != 0) [65, 80, 80, 0]) := by
  constructor
  · exact (C8_filter_match.1 demoMsgA [(some [65, 80, 80, 49], none)]).mpr
      ⟨(some [65, 80, 80, 49], none), by simp, Or.inr rfl, Or.inl rfl⟩
  · exact (C8_filter_match.2 demoRecE ⟨[65, 80, 80, 0], [67, 84, 88, 0], true⟩ rfl).1

def demoRecZeroTs : RawRecord := ⟨none, ⟨some 0⟩, ⟨5, 250⟩, []⟩

/-- C9 counterexample: a record whose standard header carries the
monotonic timestamp 0. The claim says `ts` then equals `1e-4 * 0 = 0.0`,
but `if ts:` treats the present-but-zero timestamp as absent, so the
loaded message's `ts` is `None`. -/
theorem C9_counterexample :
    demoRecZeroTs.bhdr.tmsp = some 0 ∧
    (DltMessage.loadn demoRecZeroTs).ts = none ∧
    (DltMessage.loadn demoRecZeroTs).ts ≠ some ((1 / 10000 : ℚ) * 0) := by
  refine ⟨rfl, rfl, by decide⟩

/-- C9 (amended): the storage-relative date is
`ts_sec + ts_msec * 1e-3` (exact-rational model of the float
arithmetic); when the standard header carries a nonzero monotonic
timestamp, `ts` is that timestamp times `1e-4`; and `ts` is `None`
exactly when the timestamp is absent or zero (the `if ts:` truthiness
check drops a zero timestamp). -/
theorem C9_timestamps (raw : RawRecord) :
    (DltMessage.loadn raw).date =
      (raw.shdr.ts_sec : ℚ) + (raw.shdr.ts_msec : ℚ) * (1 / 1000) ∧
    (∀ t, raw.bhdr.tmsp = some t → t ≠ 0 →
      (DltMessage.loadn raw).ts = some ((1 / 10000 : ℚ) * t)) ∧
    ((DltMessage.loadn raw).ts = none ↔
      raw.bhdr.tmsp = none ∨ raw.bhdr.tmsp = some 0) := by
  refine ⟨rfl, ?_, ?_⟩
  · intro t ht hnz
    simp [DltMessage.loadn, ht, hnz]
  · cases hmt : raw.bhdr.tmsp with
    | none => simp [DltMessage.loadn, hmt]
    | some t =>
      by_cases hz : t = 0
      · subst hz
        simp [DltMessage.loadn, hmt]
      · simp [DltMessage.loadn, hmt, hz]

def demoRecTs : RawRecord := ⟨none, ⟨some 20000⟩, ⟨5, 250⟩, []⟩

/-- C9 witness: a nonzero monotonic timestamp is scaled by `1e-4`. -/
theorem C9_timestamps_witness :
    (DltMessage.loadn demoRecTs).ts = some ((1 / 10000 : ℚ) * 20000) :=
  (C9_timestamps demoRecTs).2.1 20000 rfl (by decide)

/-- C10: a string item whose decoded value is empty (declared length 0)
makes `parse_payload` raise an uncaught `IndexError` (`value[-1]` on an
empty value) instead of returning a decode-error result, and the
`payload` property propagates that exception to the caller. -/
theorem C10_empty_string_exn :
    parse_payload [0, 2, 0, 0, 0, 0] = .exn .indexError ∧
    payloadProp none [0, 2, 0, 0, 0, 0] = (.error .indexError, none, true) := by
  constructor <;> rfl
